import Mathlib

/-!
Verification of the comprehensive website crawler
(`src/lib/comprehensive-crawler.ts` and `src/app/api/crawl-website/route.ts`).

The TypeScript source is shallowly embedded: JS strings become `String`
(processed as `List Char`), JS `Set` becomes a duplicate-free `List`, the
frontier array becomes a `List` of entries, and the platform's WHATWG `new
URL(href, base)` parser — external library code — is an abstract parameter
`resolve : String → String → Option UrlV` (returning `none` models the
constructor throwing).  Regex scans of the source are translated into
character-level scanners with the same matching semantics.
-/

namespace Webscraper

/-! ### Character and string utilities (models of the JS string primitives) -/

/-- ASCII whitespace, modelling the characters the source's `\s` regex class
and `String.prototype.trim` treat as whitespace on the ASCII inputs that occur
here. -/
def wsChar (c : Char) : Bool :=
  c = ' ' || c = '\t' || c = '\n' || c = '\r' || c = '\x0b' || c = '\x0c'

/-- Model of `String.prototype.toLowerCase` (ASCII). -/
def lowerStr (s : String) : String :=
  String.mk (s.toList.map Char.toLower)

/-- Substring containment on character lists. -/
def hasSubL (pat : List Char) : List Char → Bool
  | [] => pat.isEmpty
  | c :: rest => List.isPrefixOf pat (c :: rest) || hasSubL pat rest

/-- Model of `String.prototype.includes`. -/
def hasSub (pat s : String) : Bool :=
  hasSubL pat.toList s.toList

/-- Model of `String.prototype.startsWith`. -/
def strStartsWith (s pre : String) : Bool :=
  List.isPrefixOf pre.toList s.toList

/-- Model of `String.prototype.endsWith`. -/
def strEndsWith (s suf : String) : Bool :=
  List.isPrefixOf suf.toList.reverse s.toList.reverse

/-- Model of `String.prototype.trim`. -/
def trimL (l : List Char) : List Char :=
  ((l.dropWhile wsChar).reverse.dropWhile wsChar).reverse

def trimStr (s : String) : String :=
  String.mk (trimL s.toList)

/-- Model of `.replace(/\s+/g, " ")`: every maximal whitespace run becomes
one space.  The flag records whether the previous character was whitespace
(i.e. whether we are inside a run already replaced). -/
def collapseWsAux : Bool → List Char → List Char
  | _, [] => []
  | prevWs, c :: rest =>
    if wsChar c then
      if prevWs then collapseWsAux true rest
      else ' ' :: collapseWsAux true rest
    else c :: collapseWsAux false rest

def collapseWsL (l : List Char) : List Char :=
  collapseWsAux false l

/-- Model of `.replace(/<[^>]*>/g, "")`: a `<` followed (possibly after
non-`>` characters) by a `>` is removed together with everything between; a
`<` never followed by `>` matches nothing and is kept literally.  The fuel
argument (instantiated with the list length) only makes the recursion
structural; it never runs out. -/
def stripTagsAux : Nat → List Char → List Char
  | 0, l => l
  | _ + 1, [] => []
  | fuel + 1, c :: rest =>
    if c = '<' then
      match rest.dropWhile (fun x => !(x = '>')) with
      | [] => c :: rest
      | _ :: after => stripTagsAux fuel after
    else c :: stripTagsAux fuel rest

def stripTagsL (l : List Char) : List Char :=
  stripTagsAux l.length l

/-! ### The `rel` attribute scanner

Models the source regex `/rel\s*=\s*["']([^"']+)["']/i` (leftmost match,
case-insensitive letters, either quote opens and either quote closes, capture
must be non-empty).  The regex has no word boundary, so `rel` may occur in the
middle of a longer attribute name — the scanner reproduces that. -/

def isQuote (c : Char) : Bool := c = '"' || c = '\''

/-- Attempt the `rel` pattern at the start of the list, returning the captured
group. -/
def relCaptureAt : List Char → Option (List Char)
  | r :: e :: l :: rest =>
    if r.toLower = 'r' && e.toLower = 'e' && l.toLower = 'l' then
      match rest.dropWhile wsChar with
      | '=' :: rest2 =>
        match rest2.dropWhile wsChar with
        | q :: rest4 =>
          if isQuote q then
            match rest4.takeWhile (fun c => !(isQuote c)) with
            | [] => none
            | cap0 :: caps =>
              match rest4.dropWhile (fun c => !(isQuote c)) with
              | [] => none
              | _ :: _ => some (cap0 :: caps)
          else none
        | [] => none
      | _ => none
    else none
  | _ => none

/-- Leftmost occurrence of the `rel=` pattern. -/
def findRelL : List Char → Option (List Char)
  | [] => none
  | c :: rest =>
    match relCaptureAt (c :: rest) with
    | some cap => some cap
    | none => findRelL rest

/-- Model of `fullAttributes.match(/rel\s*=\s*["']([^"']+)["']/i)`, yielding
the captured group. -/
def findRel (s : String) : Option String :=
  (findRelL s.toList).map String.mk

/-! ### Data model for the anchor extractor (`extractExternalLinks`) -/

/-- Result of the platform's WHATWG `new URL(href, base)` constructor: its
serialization (`toString()`) and its `hostname`. -/
structure UrlV where
  full : String
  host : String
deriving DecidableEq

/-- One match of the source's anchor regex
`/<a\s+([^>]*?)href\s*=\s*["']([^"']+)["']([^>]*?)>(.*?)<\/a>/gis`:
the attribute text before `href`, the `href` value, the attribute text after
it, and the inner content. -/
structure RawAnchor where
  beforeHref : String
  href : String
  afterHref : String
  content : String
deriving DecidableEq

/-- External-link record pushed onto `links` by `extractExternalLinks`. -/
structure ExtLink where
  source_url : String
  target_url : String
  target_domain : String
  anchor_text : String
  rel_type : String
  is_nofollow : Bool
  created_at : String
deriving DecidableEq

/-- The `href` skip conditions shared by `extractExternalLinks` and
`discoverUrlsFromPage` (empty, fragment, `javascript:`, `mailto:`, `tel:`). -/
def skipHref (href : String) : Bool :=
  href == "" || trimStr href == "" || strStartsWith href "#" ||
    strStartsWith href "javascript:" || strStartsWith href "mailto:" ||
    strStartsWith href "tel:"

/-- Anchor-text normalization: strip tags, collapse whitespace, trim,
truncate to 500 characters (`.substring(0, 500)`). -/
def anchorTextOf (content : String) : String :=
  String.mk ((trimL (collapseWsL (stripTagsL content.toList))).take 500)

/-- Loop of `extractExternalLinks` over the anchor matches, threading the
per-page `seenUrls` set.  `resolve` models `new URL(href, baseUrl)`
(`none` = constructor throw, caught and skipped by the source). -/
def extractLinksGo (resolve : String → String → Option UrlV)
    (baseUrl sourceDomain now : String) :
    List RawAnchor → List String → List ExtLink
  | [], _ => []
  | a :: rest, seen =>
    if skipHref a.href then
      extractLinksGo resolve baseUrl sourceDomain now rest seen
    else
      match resolve a.href baseUrl with
      | none => extractLinksGo resolve baseUrl sourceDomain now rest seen
      | some u =>
        if !(lowerStr u.host == sourceDomain) &&
            !(strEndsWith (lowerStr u.host) ("." ++ sourceDomain)) &&
            !(seen.contains u.full) then
          { source_url := baseUrl
            target_url := u.full
            target_domain := lowerStr u.host
            anchor_text := anchorTextOf a.content
            rel_type := (findRel (a.beforeHref ++ " " ++ a.afterHref)).getD ""
            is_nofollow := hasSub "nofollow"
              (lowerStr ((findRel (a.beforeHref ++ " " ++ a.afterHref)).getD ""))
            created_at := now } ::
            extractLinksGo resolve baseUrl sourceDomain now rest (u.full :: seen)
        else
          extractLinksGo resolve baseUrl sourceDomain now rest seen

/-- Model of `extractExternalLinks(html, baseUrl, sourceDomain)`.  The HTML is
abstracted to the list of anchor-regex matches; `includeSubdomains` is in
scope in the source method (via `this.config`) but its body never reads it —
the unused parameter records that fact. -/
def extractExternalLinks (includeSubdomains : Bool)
    (resolve : String → String → Option UrlV)
    (anchors : List RawAnchor) (baseUrl sourceDomain now : String) :
    List ExtLink :=
  extractLinksGo resolve baseUrl sourceDomain now anchors []

/-! ### Spec-side definition for the nofollow claim

The spec says `is_nofollow` is true iff the *tokenized* `rel` attribute
(lowercased, whitespace-split) contains the token `nofollow`.  This
definition follows the spec's words, for comparison with the source's
substring test. -/

/-- Split on whitespace into (non-empty) tokens.  The accumulator holds the
current token reversed. -/
def splitWsAux : List Char → List Char → List (List Char)
  | acc, [] => if acc.isEmpty then [] else [acc.reverse]
  | acc, c :: rest =>
    if wsChar c then
      if acc.isEmpty then splitWsAux [] rest
      else acc.reverse :: splitWsAux [] rest
    else splitWsAux (c :: acc) rest

def splitWsL (l : List Char) : List (List Char) :=
  splitWsAux [] l

/-- Spec-side predicate: the lowercased, whitespace-split `rel` attribute
contains the token `nofollow`. -/
def specRelTokensHaveNofollow (rel : String) : Bool :=
  (splitWsL (lowerStr rel).toList).contains "nofollow".toList

/-! ### Shared facts about the emitted external-link records -/

/-- Every record emitted by the extractor loop: its `is_nofollow` flag is the
substring test on its own `rel` value, and its `target_domain` passed the
externality filter. -/
theorem extractLinksGo_mem_props (resolve : String → String → Option UrlV)
    (baseUrl sourceDomain now : String) (anchors : List RawAnchor)
    (seen : List String) :
    ∀ r ∈ extractLinksGo resolve baseUrl sourceDomain now anchors seen,
      r.is_nofollow = hasSub "nofollow" (lowerStr r.rel_type) ∧
      ¬(r.target_domain = sourceDomain) ∧
      strEndsWith r.target_domain ("." ++ sourceDomain) = false := by
  induction anchors generalizing seen with
  | nil =>
    intro r hr
    simp [extractLinksGo] at hr
  | cons a rest ih =>
    intro r hr
    rw [extractLinksGo] at hr
    split at hr
    · exact ih seen r hr
    · split at hr
      · exact ih seen r hr
      · rename_i x u hres
        split at hr
        · rename_i hcond
          rcases List.mem_cons.mp hr with h1 | h2
          · subst h1
            simp only [Bool.and_eq_true, Bool.not_eq_true'] at hcond
            refine ⟨rfl, ?_, hcond.1.2⟩
            intro habs
            have h2 : lowerStr u.host = sourceDomain := habs
            have hne := hcond.1.1
            rw [h2] at hne
            simp at hne
          · exact ih _ r h2
        · exact ih _ r hr

/-! ### C3: nofollow detection -/

/-- Concrete inputs for the nofollow counterexample: one anchor whose `rel`
attribute is the single token `nofollower`. -/
def c3Resolve : String → String → Option UrlV := fun href _ =>
  if href == "https://other.test/x" then
    some ⟨"https://other.test/x", "other.test"⟩
  else none

def c3Anchor : RawAnchor :=
  ⟨"", "https://other.test/x", " rel=\"nofollower\"", "X"⟩

def c3Links : List ExtLink :=
  extractExternalLinks true c3Resolve [c3Anchor] "https://example.test/"
    "example.test" "t0"

/-- C3 counterexample: for the anchor `<a href="https://other.test/x"
rel="nofollower">X</a>` the source emits a record with `is_nofollow = true`
(because `"nofollower".includes("nofollow")`), yet the whitespace-split token
list of the `rel` attribute does not contain the token `nofollow` — so
`is_nofollow` is not the token-membership test the claim states. -/
theorem c3_counterexample :
    c3Links = [⟨"https://example.test/", "https://other.test/x", "other.test",
      "X", "nofollower", true, "t0"⟩] ∧
    specRelTokensHaveNofollow "nofollower" = false := by
  constructor
  · rfl
  · rfl

/-- C3 (amended): for every emitted external-link record, `is_nofollow` is
true iff the lowercased `rel` attribute contains `"nofollow"` as a
*substring* (`String.prototype.includes`), not as a whitespace token. -/
theorem c3_nofollow_is_substring_test (includeSubdomains : Bool)
    (resolve : String → String → Option UrlV) (anchors : List RawAnchor)
    (baseUrl sourceDomain now : String) :
    ∀ r ∈ extractExternalLinks includeSubdomains resolve anchors baseUrl
        sourceDomain now,
      r.is_nofollow = hasSub "nofollow" (lowerStr r.rel_type) := by
  intro r hr
  exact (extractLinksGo_mem_props resolve baseUrl sourceDomain now anchors []
    r hr).1

/-- Witness for C3's amended theorem at the concrete `rel="nofollower"`
input. -/
theorem c3_nofollow_is_substring_test_witness :
    (⟨"https://example.test/", "https://other.test/x", "other.test",
      "X", "nofollower", true, "t0"⟩ : ExtLink).is_nofollow =
      hasSub "nofollow" (lowerStr "nofollower") :=
  c3_nofollow_is_substring_test true c3Resolve [c3Anchor]
    "https://example.test/" "example.test" "t0" _ (by decide)

/-! ### C7: emitted records are out of scope of the base domain -/

/-- C7: every emitted external-link record has `target_domain` different from
the base domain and not ending in `"." ++ base domain` (so in particular the
invariant holds when subdomains are included in scope). -/
theorem c7_external_target_domain (includeSubdomains : Bool)
    (resolve : String → String → Option UrlV) (anchors : List RawAnchor)
    (baseUrl sourceDomain now : String) :
    ∀ r ∈ extractExternalLinks includeSubdomains resolve anchors baseUrl
        sourceDomain now,
      ¬(r.target_domain = sourceDomain) ∧
      strEndsWith r.target_domain ("." ++ sourceDomain) = false := by
  intro r hr
  exact (extractLinksGo_mem_props resolve baseUrl sourceDomain now anchors []
    r hr).2

/-- Witness for C7 at the concrete input. -/
theorem c7_external_target_domain_witness :
    ¬(("other.test" : String) = "example.test") ∧
    strEndsWith "other.test" ("." ++ "example.test") = false :=
  c7_external_target_domain true c3Resolve [c3Anchor] "https://example.test/"
    "example.test" "t0"
    ⟨"https://example.test/", "https://other.test/x", "other.test",
      "X", "nofollower", true, "t0"⟩ (by decide)

/-! ### C9: extraction is independent of `include_subdomains` -/

/-- C9: the extractor's output depends only on the HTML (anchor matches), the
base URL and the base domain — not on the `include_subdomains` configuration
(the method never reads it) — and a link whose host equals the base domain or
is a subdomain of it is never emitted as an external-link record. -/
theorem c9_extract_independent_of_subdomain_config
    (resolve : String → String → Option UrlV) (anchors : List RawAnchor)
    (baseUrl sourceDomain now : String) (inc1 inc2 : Bool) :
    extractExternalLinks inc1 resolve anchors baseUrl sourceDomain now =
      extractExternalLinks inc2 resolve anchors baseUrl sourceDomain now ∧
    ∀ r ∈ extractExternalLinks inc1 resolve anchors baseUrl sourceDomain now,
      ¬(r.target_domain = sourceDomain ∨
        strEndsWith r.target_domain ("." ++ sourceDomain) = true) := by
  refine ⟨rfl, ?_⟩
  intro r hr
  have h := (extractLinksGo_mem_props resolve baseUrl sourceDomain now
    anchors [] r hr).2
  intro habs
  rcases habs with h1 | h2
  · exact h.1 h1
  · rw [h.2] at h2
    exact Bool.false_ne_true h2

/-- Witness for C9 at a concrete input: the output does not change when
`include_subdomains` flips, and the one emitted record's domain is neither
the base domain nor a subdomain of it. -/
theorem c9_extract_independent_of_subdomain_config_witness :
    (extractExternalLinks true c3Resolve [c3Anchor] "https://example.test/"
        "example.test" "t0" =
      extractExternalLinks false c3Resolve [c3Anchor] "https://example.test/"
        "example.test" "t0") ∧
    ¬(("other.test" : String) = "example.test" ∨
      strEndsWith "other.test" ("." ++ "example.test") = true) := by
  have h := c9_extract_independent_of_subdomain_config c3Resolve [c3Anchor]
    "https://example.test/" "example.test" "t0" true false
  exact ⟨h.1, h.2 ⟨"https://example.test/", "https://other.test/x",
    "other.test", "X", "nofollower", true, "t0"⟩ (by decide)⟩

/-! ### Crawl configuration (`CrawlConfig` and the constructor defaults) -/

structure CrawlConfig where
  maxPages : Nat
  maxDepth : Nat
  concurrency : Nat
  includeSubdomains : Bool
  followSitemaps : Bool
  respectRobots : Bool
  crawlDelay : Nat
  userAgent : String
  includeLanguageVariants : Bool
  followPagination : Bool
deriving DecidableEq

/-- The defaults installed by the `ComprehensiveCrawler` constructor. -/
def defaultConfig : CrawlConfig where
  maxPages := 5000
  maxDepth := 10
  concurrency := 5
  includeSubdomains := true
  followSitemaps := true
  respectRobots := true
  crawlDelay := 300
  userAgent := "ComprehensiveCrawler/1.0 (+https://example.com/bot)"
  includeLanguageVariants := true
  followPagination := true

/-! ### The frontier (`discoveredUrls`, `urlQueue`, `addUrlToQueue`) -/

inductive UrlType where
  | page | sitemap | robots | pagination | internal
deriving DecidableEq

/-- A `DiscoveredUrl` queue entry.  `seq` is a ghost admission index (the
rank at which the entry was admitted); the source stores no such field and
the sort below never inspects it — it only serves to state FIFO tie-breaking. -/
structure Entry where
  url : String
  depth : Nat
  source : String
  type : UrlType
  priority : Nat
  seq : Nat
deriving DecidableEq

/-- The crawler's frontier state: the `discoveredUrls` JS `Set` as a
duplicate-free list in insertion order, the `urlQueue` array, and the ghost
counter feeding `seq`. -/
structure Frontier where
  discoveredUrls : List String
  urlQueue : List Entry
  nextSeq : Nat
deriving DecidableEq

def emptyFrontier : Frontier := ⟨[], [], 0⟩

/-- Stable insertion of an entry into a priority-descending list: the entry
goes before the first strictly lower-priority element, after all elements
with priority ≥ its own that precede that point. -/
def insertEntry (e : Entry) : List Entry → List Entry
  | [] => [e]
  | x :: xs => if x.priority ≤ e.priority then e :: x :: xs else x :: insertEntry e xs

/-- Model of `this.urlQueue.sort((a, b) => b.priority - a.priority)`.
`Array.prototype.sort` is a stable sort (ES2019), and this insertion sort is
stable for the descending-priority comparator: any stable sort for a fixed
comparator has a unique output, so this function computes exactly what the
source's sort call produces. -/
def sortQueue : List Entry → List Entry
  | [] => []
  | x :: xs => insertEntry x (sortQueue xs)

/-- Model of `addUrlToQueue(url, depth, source, type, priority)`: refuse when
`|discovered| ≥ maxPages`, refuse a duplicate URL, otherwise add to the
discovered set, push onto the queue and re-sort by descending priority. -/
def addUrlToQueue (cfg : CrawlConfig) (fr : Frontier) (url : String)
    (depth : Nat) (source : String) (type : UrlType) (priority : Nat) :
    Frontier :=
  if cfg.maxPages ≤ fr.discoveredUrls.length then fr
  else if fr.discoveredUrls.contains url then fr
  else
    { discoveredUrls := fr.discoveredUrls ++ [url]
      urlQueue := sortQueue (fr.urlQueue ++
        [⟨url, depth, source, type, priority, fr.nextSeq⟩])
      nextSeq := fr.nextSeq + 1 }

/-- Model of `this.urlQueue.shift()`: return the front entry (if any) and the
remaining queue. -/
def popQueue (fr : Frontier) : Option Entry × Frontier :=
  (fr.urlQueue.head?, { fr with urlQueue := fr.urlQueue.tail })

/-- Frontier states reachable from the empty frontier by the two operations
the source performs on it: admissions (`addUrlToQueue`, with any
configuration and arguments) and pops (`urlQueue.shift()` in the workers).
Every frontier state of a crawl — including each state between successive
pops of a drain — is of this shape. -/
inductive ReachableF : Frontier → Prop where
  | init : ReachableF emptyFrontier
  | step (cfg : CrawlConfig) (fr : Frontier) (url : String) (depth : Nat)
      (source : String) (type : UrlType) (priority : Nat) :
      ReachableF fr →
      ReachableF (addUrlToQueue cfg fr url depth source type priority)
  | pop (fr : Frontier) : ReachableF fr → ReachableF (popQueue fr).2

/-! #### Ordering invariant of the queue -/

/-- Queue order: descending priority, and among equal priorities ascending
admission index (FIFO). -/
def entryLE (a b : Entry) : Prop :=
  b.priority ≤ a.priority ∧ (a.priority = b.priority → a.seq < b.seq)

/-- The frontier's internal invariant: the queue is ordered by `entryLE` and
all admission indices are below the ghost counter. -/
def FrontierInv (fr : Frontier) : Prop :=
  fr.urlQueue.Pairwise entryLE ∧ ∀ e ∈ fr.urlQueue, e.seq < fr.nextSeq

theorem mem_insertEntry {a e : Entry} {l : List Entry} :
    a ∈ insertEntry e l ↔ a = e ∨ a ∈ l := by
  induction l with
  | nil => simp [insertEntry]
  | cons x xs ih =>
    simp only [insertEntry]
    split
    · simp
    · simp only [List.mem_cons, ih]
      tauto

theorem mem_sortQueue {a : Entry} {l : List Entry} :
    a ∈ sortQueue l ↔ a ∈ l := by
  induction l with
  | nil => simp [sortQueue]
  | cons x xs ih =>
    simp only [sortQueue, mem_insertEntry, List.mem_cons, ih]

/-- Where the stable sort puts a freshly appended element of a sorted list:
after every element with priority ≥ its own. -/
def insertBehind (e : Entry) : List Entry → List Entry
  | [] => [e]
  | x :: xs =>
    if e.priority ≤ x.priority then x :: insertBehind e xs else e :: x :: xs

theorem mem_insertBehind {a e : Entry} {l : List Entry} :
    a ∈ insertBehind e l ↔ a = e ∨ a ∈ l := by
  induction l with
  | nil => simp [insertBehind]
  | cons x xs ih =>
    simp only [insertBehind]
    split
    · simp only [List.mem_cons, ih]
      tauto
    · simp

theorem sortQueue_cons (x : Entry) (xs : List Entry) :
    sortQueue (x :: xs) = insertEntry x (sortQueue xs) := rfl

theorem insertBehind_cons (e x : Entry) (xs : List Entry) :
    insertBehind e (x :: xs) =
      if e.priority ≤ x.priority then x :: insertBehind e xs
      else e :: x :: xs := rfl

/-- On a priority-descending-sorted list, sorting after appending one element
is exactly the stable insertion `insertBehind`. -/
theorem sortQueue_append_sorted (e : Entry) (l : List Entry)
    (hl : l.Pairwise (fun a b => b.priority ≤ a.priority)) :
    sortQueue (l ++ [e]) = insertBehind e l := by
  induction l with
  | nil => rfl
  | cons x xs ih =>
    have hx : ∀ y ∈ xs, y.priority ≤ x.priority :=
      fun y hy => (List.pairwise_cons.mp hl).1 y hy
    have hxs : xs.Pairwise (fun a b => b.priority ≤ a.priority) :=
      (List.pairwise_cons.mp hl).2
    rw [List.cons_append, sortQueue_cons, ih hxs, insertBehind_cons]
    by_cases hle : e.priority ≤ x.priority
    · rw [if_pos hle]
      cases hxs' : insertBehind e xs with
      | nil => rfl
      | cons y ys =>
        have hy : y = e ∨ y ∈ xs :=
          mem_insertBehind.mp (hxs' ▸ List.mem_cons_self y ys)
        have hyx : y.priority ≤ x.priority := by
          rcases hy with h1 | h2
          · rw [h1]; exact hle
          · exact hx y h2
        simp [insertEntry, hyx]
    · rw [if_neg hle]
      have hxe : insertBehind e xs = e :: xs := by
        cases xs with
        | nil => rfl
        | cons z zs =>
          have hz : z.priority ≤ x.priority := hx z (List.mem_cons_self z zs)
          have hnz : ¬ e.priority ≤ z.priority := fun habs =>
            hle (Nat.le_trans habs hz)
          rw [insertBehind_cons, if_neg hnz]
      rw [hxe]
      simp only [insertEntry, if_neg hle]
      congr 1
      cases xs with
      | nil => rfl
      | cons z zs =>
        simp [insertEntry, hx z (List.mem_cons_self z zs)]

theorem pairwise_insertBehind {e : Entry} {l : List Entry} {bound : Nat}
    (hl : l.Pairwise entryLE) (hseq : ∀ y ∈ l, y.seq < bound)
    (he : e.seq = bound) :
    (insertBehind e l).Pairwise entryLE := by
  induction l with
  | nil => simp [insertBehind]
  | cons x xs ih =>
    have hx := (List.pairwise_cons.mp hl).1
    have hxs := (List.pairwise_cons.mp hl).2
    simp only [insertBehind]
    split
    · rename_i hle
      refine List.pairwise_cons.mpr ⟨?_, ih hxs (fun y hy => hseq y (List.mem_cons_of_mem x hy))⟩
      intro y hy
      rcases mem_insertBehind.mp hy with h1 | h2
      · refine h1 ▸ ⟨hle, ?_⟩
        intro _
        rw [he]
        exact hseq x (List.mem_cons_self x xs)
      · exact hx y h2
    · rename_i hgt
      have hgt' : x.priority < e.priority := Nat.lt_of_not_le hgt
      refine List.pairwise_cons.mpr ⟨?_, hl⟩
      intro y hy
      rcases List.mem_cons.mp hy with h1 | h2
      · refine ⟨h1 ▸ Nat.le_of_lt hgt', ?_⟩
        intro habs
        rw [h1] at habs
        omega
      · have hxy := hx y h2
        refine ⟨Nat.le_trans hxy.1 (Nat.le_of_lt hgt'), ?_⟩
        intro habs
        have : y.priority ≤ x.priority := hxy.1
        omega

/-- `entryLE`-ordered implies priority-descending-ordered. -/
theorem pairwise_priority_of_entryLE {l : List Entry}
    (h : l.Pairwise entryLE) : l.Pairwise (fun a b => b.priority ≤ a.priority) :=
  List.Pairwise.imp (fun hab => hab.1) h

/-- Admission preserves the queue-ordering invariant. -/
theorem frontierInv_addUrlToQueue (cfg : CrawlConfig) (fr : Frontier)
    (url : String) (depth : Nat) (source : String) (type : UrlType)
    (priority : Nat) (hinv : FrontierInv fr) :
    FrontierInv (addUrlToQueue cfg fr url depth source type priority) := by
  rw [addUrlToQueue]
  split
  · exact hinv
  · split
    · exact hinv
    · constructor
      · simp only
        rw [sortQueue_append_sorted _ _ (pairwise_priority_of_entryLE hinv.1)]
        exact pairwise_insertBehind hinv.1 hinv.2 rfl
      · intro e he
        simp only at he ⊢
        rw [sortQueue_append_sorted _ _ (pairwise_priority_of_entryLE hinv.1)] at he
        rcases mem_insertBehind.mp he with h1 | h2
        · rw [h1]
          exact Nat.lt_succ_self _
        · exact Nat.lt_succ_of_lt (hinv.2 e h2)

/-- Every reachable frontier satisfies the ordering invariant (a pop keeps
the tail of an ordered queue ordered). -/
theorem frontierInv_of_reachable {fr : Frontier} (h : ReachableF fr) :
    FrontierInv fr := by
  induction h with
  | init => exact ⟨List.Pairwise.nil, by intro e he; simp [emptyFrontier] at he⟩
  | step cfg fr url depth source type priority _ ih =>
    exact frontierInv_addUrlToQueue cfg fr url depth source type priority ih
  | pop fr _ ih =>
    refine ⟨?_, ?_⟩
    · exact ih.1.sublist (List.tail_sublist _)
    · intro e he
      exact ih.2 e (List.mem_of_mem_tail he)

/-! ### C1: pop order of the frontier -/

/-- C1: in every reachable frontier state with a non-empty queue, `pop`
(`urlQueue.shift()`) removes and returns the front entry, and that entry has
maximal priority among all queued entries; among entries of equal priority it
is the one admitted earliest (least ghost admission index). -/
theorem c1_pop_highest_priority_fifo (fr : Frontier) (e : Entry)
    (rest : List Entry) (hreach : ReachableF fr)
    (hq : fr.urlQueue = e :: rest) :
    popQueue fr = (some e, ⟨fr.discoveredUrls, rest, fr.nextSeq⟩) ∧
    ∀ x ∈ fr.urlQueue,
      x.priority ≤ e.priority ∧ (x.priority = e.priority → e.seq ≤ x.seq) := by
  have hinv := frontierInv_of_reachable hreach
  constructor
  · simp [popQueue, hq]
  · intro x hx
    rw [hq] at hx
    rcases List.mem_cons.mp hx with h1 | h2
    · exact ⟨h1 ▸ Nat.le_refl _, fun _ => h1 ▸ Nat.le_refl _⟩
    · have hpair := hinv.1
      rw [hq] at hpair
      have hex := (List.pairwise_cons.mp hpair).1 x h2
      exact ⟨hex.1, fun hp => Nat.le_of_lt (hex.2 hp.symm)⟩

/-- Witness for C1 at a state *after* a pop, in the middle of a drain:
admit priority 5, then two entries at priority 7, pop once (returning the
priority-7 entry admitted first, admission index 1); in the resulting state
the next pop returns the second priority-7 entry (admission index 2) — FIFO
order across successive pops. -/
theorem c1_pop_highest_priority_fifo_witness :
    popQueue (popQueue (addUrlToQueue defaultConfig
        (addUrlToQueue defaultConfig
          (addUrlToQueue defaultConfig emptyFrontier "https://e.test/a" 1 "s"
            UrlType.internal 5)
          "https://e.test/b" 1 "s" UrlType.internal 7)
        "https://e.test/c" 1 "s" UrlType.internal 7)).2 =
      (some ⟨"https://e.test/c", 1, "s", UrlType.internal, 7, 2⟩,
        ⟨["https://e.test/a", "https://e.test/b", "https://e.test/c"],
          [⟨"https://e.test/a", 1, "s", UrlType.internal, 5, 0⟩], 3⟩) ∧
    ∀ x ∈ (popQueue (addUrlToQueue defaultConfig
        (addUrlToQueue defaultConfig
          (addUrlToQueue defaultConfig emptyFrontier "https://e.test/a" 1 "s"
            UrlType.internal 5)
          "https://e.test/b" 1 "s" UrlType.internal 7)
        "https://e.test/c" 1 "s" UrlType.internal 7)).2.urlQueue,
      x.priority ≤ 7 ∧ (x.priority = 7 → 2 ≤ x.seq) := by
  have h := c1_pop_highest_priority_fifo
    (popQueue (addUrlToQueue defaultConfig
      (addUrlToQueue defaultConfig
        (addUrlToQueue defaultConfig emptyFrontier "https://e.test/a" 1 "s"
          UrlType.internal 5)
        "https://e.test/b" 1 "s" UrlType.internal 7)
      "https://e.test/c" 1 "s" UrlType.internal 7)).2
    ⟨"https://e.test/c", 1, "s", UrlType.internal, 7, 2⟩
    [⟨"https://e.test/a", 1, "s", UrlType.internal, 5, 0⟩]
    (ReachableF.pop _
      (ReachableF.step _ _ _ _ _ _ _
        (ReachableF.step _ _ _ _ _ _ _
          (ReachableF.step _ _ _ _ _ _ _ ReachableF.init))))
    (by decide)
  exact ⟨h.1, h.2⟩

/-! ### C2: bounded, idempotent admission -/

/-- C2: admission keeps `|discovered| ≤ max_pages` — once the discovered set
has `max_pages` (or more) elements a further admission changes nothing, a URL
already discovered is refused (idempotence), and an admission never pushes
the discovered set above the cap. -/
theorem c2_admission_cap_and_idempotence (cfg : CrawlConfig) (fr : Frontier)
    (url : String) (depth : Nat) (source : String) (type : UrlType)
    (priority : Nat) :
    (cfg.maxPages ≤ fr.discoveredUrls.length →
      addUrlToQueue cfg fr url depth source type priority = fr) ∧
    (url ∈ fr.discoveredUrls →
      addUrlToQueue cfg fr url depth source type priority = fr) ∧
    (fr.discoveredUrls.length ≤ cfg.maxPages →
      (addUrlToQueue cfg fr url depth source type priority).discoveredUrls.length
        ≤ cfg.maxPages) := by
  refine ⟨?_, ?_, ?_⟩
  · intro hcap
    rw [addUrlToQueue, if_pos hcap]
  · intro hmem
    rw [addUrlToQueue]
    split
    · rfl
    · rw [if_pos (List.elem_eq_true_of_mem hmem)]
  · intro hle
    rw [addUrlToQueue]
    split
    · exact hle
    · split
      · exact hle
      · rename_i hcap _
        simp only [List.length_append, List.length_cons, List.length_nil]
        omega

/-- Witness for C2 at a concrete frontier: a full frontier (cap 1) refuses a
new URL, a duplicate URL is refused, and the size stays within the cap. -/
theorem c2_admission_cap_and_idempotence_witness :
    (addUrlToQueue { defaultConfig with maxPages := 1 }
        ⟨["https://e.test/a"], [], 1⟩ "https://e.test/b" 0 "s"
        UrlType.page 10 = ⟨["https://e.test/a"], [], 1⟩) ∧
    (addUrlToQueue defaultConfig ⟨["https://e.test/a"], [], 1⟩
        "https://e.test/a" 0 "s" UrlType.page 10 =
      ⟨["https://e.test/a"], [], 1⟩) ∧
    (addUrlToQueue { defaultConfig with maxPages := 1 }
        ⟨["https://e.test/a"], [], 1⟩ "https://e.test/b" 0 "s"
        UrlType.page 10).discoveredUrls.length ≤ 1 := by
  refine ⟨?_, ?_, ?_⟩
  · exact (c2_admission_cap_and_idempotence { defaultConfig with maxPages := 1 }
      ⟨["https://e.test/a"], [], 1⟩ "https://e.test/b" 0 "s" UrlType.page 10).1
      (by decide)
  · exact (c2_admission_cap_and_idempotence defaultConfig
      ⟨["https://e.test/a"], [], 1⟩ "https://e.test/a" 0 "s" UrlType.page 10).2.1
      (by decide)
  · exact (c2_admission_cap_and_idempotence { defaultConfig with maxPages := 1 }
      ⟨["https://e.test/a"], [], 1⟩ "https://e.test/b" 0 "s" UrlType.page 10).2.2
      (by decide)

/-! ### URL classifiers (`isHighValueUrl`, `isLanguageVariant`,
`isPaginationUrl`) -/

def isLowerAlpha (c : Char) : Bool := 'a' ≤ c && c ≤ 'z'

def isAlphaC (c : Char) : Bool := isLowerAlpha c || ('A' ≤ c && c ≤ 'Z')

def isDigitC (c : Char) : Bool := '0' ≤ c && c ≤ '9'

def highValuePatterns : List String :=
  ["/blog/", "/article/", "/post/", "/news/", "/wiki/", "/page/",
   "/category/", "/tag/", "/archive/", "/search/", "/index", "/sitemap",
   "/directory/", "/list/", "/browse/"]

/-- Model of `isHighValueUrl`: the lowercased URL contains one of the
high-value path substrings. -/
def isHighValueUrl (url : String) : Bool :=
  highValuePatterns.any (fun pattern => hasSub pattern (lowerStr url))

/-- Scanner for `/\/[a-z]{2}\//` (case-sensitive). -/
def hasSlashLLSlash : List Char → Bool
  | '/' :: a :: b :: '/' :: rest =>
    (isLowerAlpha a && isLowerAlpha b) || hasSlashLLSlash (a :: b :: '/' :: rest)
  | _ :: rest => hasSlashLLSlash rest
  | [] => false

/-- Scanner for `/\/[a-z]{2}-[a-z]{2}\//i` (case-insensitive). -/
def hasSlashLLDashLLSlash : List Char → Bool
  | '/' :: a :: b :: '-' :: c :: d :: '/' :: rest =>
    (isAlphaC a && isAlphaC b && isAlphaC c && isAlphaC d) ||
      hasSlashLLDashLLSlash (a :: b :: '-' :: c :: d :: '/' :: rest)
  | _ :: rest => hasSlashLLDashLLSlash rest
  | [] => false

/-- Scanner for `/\.[a-z]{2}\./` (case-sensitive). -/
def hasDotLLDot : List Char → Bool
  | '.' :: a :: b :: '.' :: rest =>
    (isLowerAlpha a && isLowerAlpha b) || hasDotLLDot (a :: b :: '.' :: rest)
  | _ :: rest => hasDotLLDot rest
  | [] => false

/-- Model of `isLanguageVariant`: the raw URL matches one of the
language-variant regexes. -/
def isLanguageVariant (url : String) : Bool :=
  hasSlashLLSlash url.toList || hasSlashLLDashLLSlash url.toList ||
    hasDotLLDot url.toList || hasSub "lang=" url || hasSub "language=" url ||
    hasSub "locale=" url

/-- Scanner for `pat` followed by at least one digit (`pat\d+`). -/
def hasPatThenDigit (pat : List Char) : List Char → Bool
  | [] => false
  | c :: rest =>
    (List.isPrefixOf pat (c :: rest) &&
      (match (c :: rest).drop pat.length with
       | d :: _ => isDigitC d
       | [] => false)) ||
    hasPatThenDigit pat rest

/-- Scanner for `/\/\d+\/$/`: the string ends in a slash, at least one digit,
and a slash. -/
def endsSlashDigitsSlash (l : List Char) : Bool :=
  match l.reverse with
  | '/' :: rest =>
    !(rest.takeWhile isDigitC).isEmpty &&
      (match rest.dropWhile isDigitC with
       | '/' :: _ => true
       | _ => false)
  | _ => false

/-- Model of `isPaginationUrl`: the lowercased URL matches one of the
pagination regexes. -/
def isPaginationUrl (url : String) : Bool :=
  hasPatThenDigit "page=".toList (lowerStr url).toList ||
    hasPatThenDigit "p=".toList (lowerStr url).toList ||
    hasPatThenDigit "offset=".toList (lowerStr url).toList ||
    hasPatThenDigit "start=".toList (lowerStr url).toList ||
    hasPatThenDigit "/page/".toList (lowerStr url).toList ||
    hasPatThenDigit "/p".toList (lowerStr url).toList ||
    endsSlashDigitsSlash (lowerStr url).toList ||
    hasSub "next" (lowerStr url) || hasSub "more" (lowerStr url) ||
    hasSub "continue" (lowerStr url)

/-! ### Scope predicate and page discovery (`shouldCrawlUrl`,
`discoverUrlsFromPage`) -/

/-- Model of `shouldCrawlUrl(url, baseDomain)` applied to the parsed URL's
lowercased hostname (the source re-parses the serialized absolute URL; WHATWG
serialization round-trips, so the hostname is that of the resolved URL). -/
def shouldCrawlUrl (cfg : CrawlConfig) (host baseDomain : String) : Bool :=
  if cfg.includeSubdomains then
    host == baseDomain || strEndsWith host ("." ++ baseDomain)
  else host == baseDomain

/-- One iteration of the anchor loop of `discoverUrlsFromPage`: the state is
the frontier together with the per-page `discoveredInThisPage` set. -/
def discoverStep (cfg : CrawlConfig) (resolve : String → String → Option UrlV)
    (currentUrl baseDomain : String) (currentDepth : Nat)
    (st : Frontier × List String) (href : String) : Frontier × List String :=
  if skipHref href then st
  else
    match resolve href currentUrl with
    | none => st
    | some u =>
      if shouldCrawlUrl cfg (lowerStr u.host) baseDomain &&
          !(st.2.contains u.full) then
        (addUrlToQueue cfg st.1 u.full (currentDepth + 1) currentUrl
          (if cfg.followPagination && isPaginationUrl u.full then
            UrlType.pagination
          else UrlType.internal)
          (if cfg.followPagination && isPaginationUrl u.full then 6
           else if cfg.includeLanguageVariants && isLanguageVariant u.full then 6
           else if isHighValueUrl u.full then 7
           else 5),
         st.2 ++ [u.full])
      else st

/-- Model of the anchor-scanning loop of `discoverUrlsFromPage(currentUrl,
html, baseDomain, currentDepth)`.  The HTML is abstracted to the list of
`href` captures of the internal-link regex; the trailing
`discoverSpecialPatterns` pass (JSON-LD and feeds) performs further
admissions not modelled here. -/
def discoverUrlsFromPage (cfg : CrawlConfig)
    (resolve : String → String → Option UrlV) (currentUrl baseDomain : String)
    (currentDepth : Nat) (hrefs : List String) (fr : Frontier) : Frontier :=
  (hrefs.foldl (discoverStep cfg resolve currentUrl baseDomain currentDepth)
    (fr, [])).1

/-! ### C6: priority of high-value URLs -/

def c6Resolve : String → String → Option UrlV := fun href _ =>
  if href == "https://example.test/en/blog/" then
    some ⟨"https://example.test/en/blog/", "example.test"⟩
  else if href == "https://example.test/blog/post-one" then
    some ⟨"https://example.test/blog/post-one", "example.test"⟩
  else none

/-- C6 counterexample: `https://example.test/en/blog/` is an in-scope anchor
URL matching the high-value pattern `/blog/`, yet it is admitted with
priority 6, not 7 — with the default configuration the language-variant
check (`/\/[a-z]{2}\//` matches `/en/`) runs after the high-value check and
overwrites the priority. -/
theorem c6_counterexample :
    isHighValueUrl "https://example.test/en/blog/" = true ∧
    shouldCrawlUrl defaultConfig "example.test" "example.test" = true ∧
    (discoverUrlsFromPage defaultConfig c6Resolve "https://example.test/"
        "example.test" 0 ["https://example.test/en/blog/"]
        emptyFrontier).urlQueue =
      [⟨"https://example.test/en/blog/", 1, "https://example.test/",
        UrlType.internal, 6, 0⟩] := by
  refine ⟨rfl, rfl, rfl⟩

/-- C6 (amended): an in-scope, not-yet-seen anchor URL matching a high-value
path pattern is admitted to the frontier with priority 7, *provided* it does
not also match an enabled language-variant or pagination pattern (each of
those overrides the priority to 6, pagination also overriding the type). -/
theorem c6_high_value_priority_7 (cfg : CrawlConfig)
    (resolve : String → String → Option UrlV)
    (currentUrl baseDomain href : String) (currentDepth : Nat) (fr : Frontier)
    (seen : List String) (u : UrlV)
    (hskip : skipHref href = false)
    (hres : resolve href currentUrl = some u)
    (hscope : shouldCrawlUrl cfg (lowerStr u.host) baseDomain = true)
    (hseen : seen.contains u.full = false)
    (hhv : isHighValueUrl u.full = true)
    (hlang : (cfg.includeLanguageVariants && isLanguageVariant u.full) = false)
    (hpag : (cfg.followPagination && isPaginationUrl u.full) = false)
    (hcap : fr.discoveredUrls.length < cfg.maxPages)
    (hnew : fr.discoveredUrls.contains u.full = false) :
    (⟨u.full, currentDepth + 1, currentUrl, UrlType.internal, 7,
      fr.nextSeq⟩ : Entry) ∈
      (discoverStep cfg resolve currentUrl baseDomain currentDepth (fr, seen)
        href).1.urlQueue := by
  rw [discoverStep]
  rw [if_neg (by rw [hskip]; exact Bool.false_ne_true)]
  rw [hres]
  dsimp only
  rw [if_pos (by rw [hscope, hseen]; rfl)]
  rw [hpag, hlang, hhv]
  simp only [Bool.false_eq_true, if_false, if_true]
  rw [addUrlToQueue]
  rw [if_neg (Nat.not_le.mpr hcap)]
  rw [if_neg (by rw [hnew]; exact Bool.false_ne_true)]
  simp only
  exact mem_sortQueue.mpr (List.mem_append_right _ (List.mem_singleton.mpr rfl))

/-- Witness for C6's amended theorem: `https://example.test/blog/post-one`
is high-value and matches no override, so it enters the queue with
priority 7. -/
theorem c6_high_value_priority_7_witness :
    (⟨"https://example.test/blog/post-one", 1, "https://example.test/",
      UrlType.internal, 7, 0⟩ : Entry) ∈
      (discoverStep defaultConfig c6Resolve "https://example.test/"
        "example.test" 0 (emptyFrontier, [])
        "https://example.test/blog/post-one").1.urlQueue :=
  c6_high_value_priority_7 defaultConfig c6Resolve "https://example.test/"
    "example.test" "https://example.test/blog/post-one" 0 emptyFrontier []
    ⟨"https://example.test/blog/post-one", "example.test"⟩
    (by decide) (by decide) (by decide) (by decide) (by decide) (by decide)
    (by decide) (by decide) (by decide)

/-! ### The crawl loop (`performComprehensiveCrawl` and `crawlWebsite`)

The loop is modelled sequentially (it is the `concurrency = 1` instance of
the worker pool; the claims below are about counter arithmetic, the frontier
and the result shape, which the interleaving does not change for a single
worker).  Fetching is an oracle `fetch : String → Option Page`: `none` means
`crawlPage` threw (HTTP error, timeout, …), `some` carries the post-redirect
`finalUrl` and the two regex scans of the body (`anchors` for
`extractExternalLinks`, `hrefs` for `discoverUrlsFromPage`); a non-HTML
response is a `Page` with empty scans. -/

structure Page where
  finalUrl : String
  anchors : List RawAnchor
  hrefs : List String
deriving DecidableEq

/-- JS `Set.prototype.add` on a set kept as a duplicate-free list. -/
def insertStr (s : List String) (x : String) : List String :=
  if s.contains x then s else s ++ [x]

/-- Worker-pool state: frontier, `crawledUrls` set, accumulated `allLinks`,
the shared `pagesCrawled` and `crawlErrors` counters, and a ghost log of the
`pagesCrawled` values at which the periodic `saveState` ran. -/
structure CrawlSt where
  frontier : Frontier
  crawledUrls : List String
  allLinks : List ExtLink
  pagesCrawled : Nat
  crawlErrors : Nat
  saves : List Nat
deriving DecidableEq

/-- `const saveInterval = 50` in `performComprehensiveCrawl`. -/
def saveInterval : Nat := 50

/-- The worker loop body.  Fuel only bounds the number of iterations (the
theorems hold for every fuel); each iteration follows the source: exit when
`pagesCrawled ≥ maxPages`, `shift()` the queue (exit when it stays empty),
skip crawled or too-deep entries, fetch, accumulate links, mark the final
URL crawled, bump the counter, discover new URLs, and checkpoint when the
counter is a multiple of `saveInterval`. -/
def runWorker (cfg : CrawlConfig) (resolve : String → String → Option UrlV)
    (fetch : String → Option Page) (baseDomain now : String) :
    Nat → CrawlSt → CrawlSt
  | 0, st => st
  | fuel + 1, st =>
    if st.pagesCrawled < cfg.maxPages then
      match st.frontier.urlQueue.head? with
      | none => st
      | some e =>
        let st' : CrawlSt :=
          { st with frontier := { st.frontier with
              urlQueue := st.frontier.urlQueue.tail } }
        if st'.crawledUrls.contains e.url then
          runWorker cfg resolve fetch baseDomain now fuel st'
        else if cfg.maxDepth < e.depth then
          runWorker cfg resolve fetch baseDomain now fuel st'
        else
          match fetch e.url with
          | none =>
            runWorker cfg resolve fetch baseDomain now fuel
              { st' with crawlErrors := st'.crawlErrors + 1 }
          | some pg =>
            let st1 : CrawlSt :=
              { st' with
                allLinks := st'.allLinks ++
                  extractExternalLinks cfg.includeSubdomains resolve
                    pg.anchors pg.finalUrl baseDomain now
                crawledUrls := insertStr st'.crawledUrls pg.finalUrl
                pagesCrawled := st'.pagesCrawled + 1 }
            let st2 : CrawlSt :=
              { st1 with frontier := (discoverUrlsFromPage cfg resolve
                  pg.finalUrl baseDomain e.depth pg.hrefs st1.frontier) }
            runWorker cfg resolve fetch baseDomain now fuel
              (if st2.pagesCrawled % saveInterval == 0 then
                { st2 with saves := st2.saves ++ [st2.pagesCrawled] }
              else st2)
    else st

/-- Model of `performComprehensiveCrawl(baseDomain)`: reset the error
counter and the local `pagesCrawled`, then drain the queue. -/
def performComprehensiveCrawl (cfg : CrawlConfig)
    (resolve : String → String → Option UrlV) (fetch : String → Option Page)
    (baseDomain now : String) (fuel : Nat) (st : CrawlSt) : CrawlSt :=
  runWorker cfg resolve fetch baseDomain now fuel
    { st with pagesCrawled := 0, crawlErrors := 0, saves := [] }

/-- The `CrawlState` blob `loadState` reads back (`nextSeq` is the ghost
counter serialized alongside; `sitemapCount` abstracts `sitemapCache.size`). -/
structure SavedState where
  discoveredUrls : List String
  crawledUrls : List String
  urlQueue : List Entry
  allLinks : List ExtLink
  sitemapCount : Nat
  nextSeq : Nat
deriving DecidableEq

inductive SaveEvent where
  | periodic (pagesCrawled : Nat)
  | final
deriving DecidableEq

structure CrawlStats where
  pagesCrawled : Nat
  totalUrls : Nat
  errors : Nat
  domains : Nat
  sitemapsFound : Nat
deriving DecidableEq

/-- What `crawlWebsite` returns, plus the ghost `saveState` event log. -/
structure CrawlResult where
  links : List ExtLink
  stats : CrawlStats
  error : Option String
  saves : List SaveEvent
deriving DecidableEq

/-- Seeding pass of `discoverFromSitemaps` / `discoverFromRobots`: enqueue each
in-scope discovered sitemap URL at depth 1 with priority 8. -/
def seedFrom (cfg : CrawlConfig) (source : String) (domain : String)
    (seeds : List UrlV) (fr : Frontier) : Frontier :=
  seeds.foldl
    (fun fr u =>
      if shouldCrawlUrl cfg (lowerStr u.host) domain then
        addUrlToQueue cfg fr u.full 1 source UrlType.sitemap 8
      else fr)
    fr

/-- Model of `crawlWebsite(startUrl, resume)`.  `parseHost` models
`new URL(startUrl).hostname` (`none` = the constructor throws, the one
statement of the `try` block that can raise — every other failure inside is
caught locally); `loadResult` models the checkpoint row `loadState` finds;
`sitemapSeeds` / `robotsSeeds` are the URL lists the two discovery passes
obtain from the network; `sitemapCacheCount` abstracts the final
`sitemapCache.size`.  A top-level throw is the `catch` branch: empty links,
zeroed stats with `errors = 1`, and the error message. -/
def crawlWebsite (cfg : CrawlConfig)
    (resolve : String → String → Option UrlV) (fetch : String → Option Page)
    (parseHost : String → Option String) (loadResult : Option SavedState)
    (sitemapSeeds robotsSeeds : List UrlV) (sitemapCacheCount : Nat)
    (startUrl : String) (resume : Bool) (now : String) (fuel : Nat) :
    CrawlResult :=
  match parseHost startUrl with
  | none =>
    { links := []
      stats := ⟨0, 0, 1, 0, 0⟩
      error := some "Invalid URL"
      saves := [] }
  | some h =>
    let startDomain := lowerStr h
    let resumed := resume && loadResult.isSome
    let st0 : CrawlSt :=
      match resume, loadResult with
      | true, some s =>
        { frontier := ⟨s.discoveredUrls, sortQueue s.urlQueue, s.nextSeq⟩
          crawledUrls := s.crawledUrls
          allLinks := s.allLinks
          pagesCrawled := 0
          crawlErrors := 0
          saves := [] }
      | _, _ =>
        { frontier := emptyFrontier
          crawledUrls := []
          allLinks := []
          pagesCrawled := 0
          crawlErrors := 0
          saves := [] }
    let fr1 := addUrlToQueue cfg st0.frontier startUrl 0 "start" UrlType.page 10
    let fr2 :=
      if cfg.followSitemaps then
        seedFrom cfg "sitemap" startDomain sitemapSeeds fr1
      else fr1
    let fr3 :=
      if cfg.respectRobots then
        seedFrom cfg "robots" startDomain robotsSeeds fr2
      else fr2
    let st1 : CrawlSt :=
      if !resumed || st0.frontier.urlQueue.isEmpty then
        { st0 with frontier := fr3 }
      else st0
    let stF := performComprehensiveCrawl cfg resolve fetch startDomain now
      fuel st1
    { links := stF.allLinks
      stats :=
        { pagesCrawled := stF.pagesCrawled
          totalUrls := stF.frontier.discoveredUrls.length
          errors := stF.crawlErrors
          domains := (stF.allLinks.map (fun l => l.target_domain)).eraseDups.length
          sitemapsFound := sitemapCacheCount }
      error := none
      saves := stF.saves.map SaveEvent.periodic ++ [SaveEvent.final] }

/-! ### C4: checkpoint cadence -/

/-- The `pagesCrawled` values in `1..n` at which the periodic checkpoint
fires. -/
def savesUpTo (n : Nat) : List Nat :=
  (List.range (n + 1)).filter (fun k => k % saveInterval == 0 && !(k == 0))

theorem savesUpTo_succ (n : Nat) :
    savesUpTo (n + 1) =
      savesUpTo n ++ (if ((n + 1) % saveInterval == 0) = true then [n + 1]
        else []) := by
  unfold savesUpTo
  rw [List.range_succ, List.filter_append]
  congr 1
  rw [List.filter_cons]
  by_cases hc : ((n + 1) % saveInterval == 0) = true
  · rw [if_pos hc]
    have hcc : ((n + 1) % saveInterval == 0 && !(n + 1 == 0)) = true := by
      simp [hc]
    rw [if_pos hcc, List.filter_nil]
  · rw [if_neg hc]
    have hcc : ((n + 1) % saveInterval == 0 && !(n + 1 == 0)) = false := by
      simp_all
    rw [if_neg (by rw [hcc]; exact Bool.false_ne_true), List.filter_nil]

/-- The worker loop keeps its ghost save log equal to the multiples of
`saveInterval` reached by `pagesCrawled`. -/
theorem runWorker_saves (cfg : CrawlConfig)
    (resolve : String → String → Option UrlV) (fetch : String → Option Page)
    (baseDomain now : String) :
    ∀ (fuel : Nat) (st : CrawlSt), st.saves = savesUpTo st.pagesCrawled →
      (runWorker cfg resolve fetch baseDomain now fuel st).saves =
        savesUpTo
          (runWorker cfg resolve fetch baseDomain now fuel st).pagesCrawled := by
  intro fuel
  induction fuel with
  | zero => intro st h; exact h
  | succ fuel ih =>
    intro st h
    rw [runWorker]
    split
    · split
      · exact h
      · rename_i e
        dsimp only
        split
        · exact ih _ h
        · split
          · exact ih _ h
          · split
            · exact ih _ h
            · rename_i pg
              apply ih
              split
              · rename_i hsave
                show st.saves ++ [st.pagesCrawled + 1] =
                  savesUpTo (st.pagesCrawled + 1)
                rw [h, savesUpTo_succ, if_pos hsave]
              · rename_i hsave
                show st.saves = savesUpTo (st.pagesCrawled + 1)
                rw [h, savesUpTo_succ, if_neg hsave, List.append_nil]
    · exact h

/-- C4 (amended): on every crawl that starts (the start URL parses), the
periodic checkpoint fires exactly at the multiples of 50 pages — the source's
`saveInterval` is 50, not 20 — and one final save follows the worker drain. -/
theorem c4_checkpoint_every_50_and_final (cfg : CrawlConfig)
    (resolve : String → String → Option UrlV) (fetch : String → Option Page)
    (parseHost : String → Option String) (loadResult : Option SavedState)
    (sitemapSeeds robotsSeeds : List UrlV) (sitemapCacheCount : Nat)
    (startUrl : String) (resume : Bool) (now : String) (fuel : Nat)
    (h : String) (hhost : parseHost startUrl = some h) :
    saveInterval = 50 ∧
    (crawlWebsite cfg resolve fetch parseHost loadResult sitemapSeeds
        robotsSeeds sitemapCacheCount startUrl resume now fuel).saves =
      (savesUpTo (crawlWebsite cfg resolve fetch parseHost loadResult
          sitemapSeeds robotsSeeds sitemapCacheCount startUrl resume now
          fuel).stats.pagesCrawled).map SaveEvent.periodic ++
        [SaveEvent.final] := by
  refine ⟨rfl, ?_⟩
  unfold crawlWebsite
  rw [hhost]
  dsimp only
  rw [performComprehensiveCrawl]
  congr 1
  exact congrArg (List.map SaveEvent.periodic)
    (runWorker_saves cfg resolve fetch (lowerStr h) now fuel _ rfl)

/-- Concrete crawl for the C4 counterexample: the start URL plus 19
sitemap-seeded pages, every fetch an HTML page with no links. -/
def c4Seeds : List UrlV :=
  (List.range 19).map
    (fun i => ⟨"https://example.test/p" ++ toString i, "example.test"⟩)

def c4Fetch : String → Option Page := fun u => some ⟨u, [], []⟩

def c4ParseHost : String → Option String := fun s =>
  if s == "https://example.test/" then some "example.test" else none

def noResolve : String → String → Option UrlV := fun _ _ => none

def c4Run : CrawlResult :=
  crawlWebsite defaultConfig noResolve c4Fetch c4ParseHost none c4Seeds [] 0
    "https://example.test/" false "t0" 64

/-- C4 counterexample: a crawl that completes exactly 20 pages performs no
periodic save at all — in particular none when the shared counter reached 20 —
because the source's `saveInterval` is 50, not the claimed default 20.  Only
the one final save after the drain happens. -/
theorem c4_counterexample :
    c4Run.stats.pagesCrawled = 20 ∧ c4Run.saves = [SaveEvent.final] := by
  refine ⟨rfl, rfl⟩

/-- Witness for C4's amended theorem on the concrete 20-page crawl. -/
theorem c4_checkpoint_every_50_and_final_witness :
    saveInterval = 50 ∧
    c4Run.saves =
      (savesUpTo c4Run.stats.pagesCrawled).map SaveEvent.periodic ++
        [SaveEvent.final] :=
  c4_checkpoint_every_50_and_final defaultConfig noResolve c4Fetch c4ParseHost
    none c4Seeds [] 0 "https://example.test/" false "t0" 64 "example.test"
    (by decide)

/-! ### C8: resuming a completed crawl is a frontier no-op -/

/-- An admission refused by the duplicate check or the cap leaves the
frontier unchanged. -/
theorem addUrlToQueue_noop (cfg : CrawlConfig) (fr : Frontier) (url : String)
    (depth : Nat) (source : String) (type : UrlType) (priority : Nat)
    (h : url ∈ fr.discoveredUrls ∨ cfg.maxPages ≤ fr.discoveredUrls.length) :
    addUrlToQueue cfg fr url depth source type priority = fr := by
  rw [addUrlToQueue]
  rcases h with hmem | hcap
  · split
    · rfl
    · rw [if_pos (List.elem_eq_true_of_mem hmem)]
  · rw [if_pos hcap]

/-- Seeding with URLs that are all already discovered (or with the cap
reached) leaves the frontier unchanged. -/
theorem seedFrom_noop (cfg : CrawlConfig) (source domain : String)
    (seeds : List UrlV) (fr : Frontier)
    (h : ∀ u ∈ seeds,
      u.full ∈ fr.discoveredUrls ∨ cfg.maxPages ≤ fr.discoveredUrls.length) :
    seedFrom cfg source domain seeds fr = fr := by
  induction seeds with
  | nil => rfl
  | cons u rest ih =>
    rw [seedFrom, List.foldl_cons]
    have hstep :
        (if shouldCrawlUrl cfg (lowerStr u.host) domain then
          addUrlToQueue cfg fr u.full 1 source UrlType.sitemap 8
        else fr) = fr := by
      split
      · exact addUrlToQueue_noop cfg fr u.full 1 source UrlType.sitemap 8
          (h u (List.mem_cons_self u rest))
      · rfl
    rw [hstep]
    exact ih (fun v hv => h v (List.mem_cons_of_mem u hv))

/-- The worker loop does nothing on an empty queue. -/
theorem runWorker_empty_queue (cfg : CrawlConfig)
    (resolve : String → String → Option UrlV) (fetch : String → Option Page)
    (baseDomain now : String) (fuel : Nat) (st : CrawlSt)
    (h : st.frontier.urlQueue = []) :
    runWorker cfg resolve fetch baseDomain now fuel st = st := by
  cases fuel with
  | zero => rfl
  | succ fuel =>
    rw [runWorker]
    split
    · rw [h]
      rfl
    · rfl

/-- C8: starting `crawlWebsite` with `resume = true` right after a completed
crawl — loaded checkpoint with an empty frontier, and every seed URL (start
URL, sitemap- and robots-discovered URLs) already in the discovered set or
blocked by the cap — fetches no page: the re-seeding admits nothing, the
workers exit immediately, and the result carries the loaded links with
`pagesCrawled = 0`. -/
theorem c8_resume_completed_noop (cfg : CrawlConfig)
    (resolve : String → String → Option UrlV) (fetch : String → Option Page)
    (parseHost : String → Option String) (s : SavedState)
    (sitemapSeeds robotsSeeds : List UrlV) (sitemapCacheCount : Nat)
    (startUrl now : String) (fuel : Nat) (h : String)
    (hhost : parseHost startUrl = some h)
    (hq : s.urlQueue = [])
    (hstart : startUrl ∈ s.discoveredUrls ∨
      cfg.maxPages ≤ s.discoveredUrls.length)
    (hseeds : ∀ u ∈ sitemapSeeds ++ robotsSeeds,
      u.full ∈ s.discoveredUrls ∨ cfg.maxPages ≤ s.discoveredUrls.length) :
    crawlWebsite cfg resolve fetch parseHost (some s) sitemapSeeds robotsSeeds
        sitemapCacheCount startUrl true now fuel =
      { links := s.allLinks
        stats :=
          { pagesCrawled := 0
            totalUrls := s.discoveredUrls.length
            errors := 0
            domains :=
              (s.allLinks.map (fun l => l.target_domain)).eraseDups.length
            sitemapsFound := sitemapCacheCount }
        error := none
        saves := [SaveEvent.final] } := by
  unfold crawlWebsite
  rw [hhost]
  dsimp only
  rw [hq]
  have hfr1 : addUrlToQueue cfg ⟨s.discoveredUrls, sortQueue [], s.nextSeq⟩
      startUrl 0 "start" UrlType.page 10 =
      ⟨s.discoveredUrls, sortQueue [], s.nextSeq⟩ :=
    addUrlToQueue_noop _ _ _ _ _ _ _ hstart
  rw [hfr1]
  have hseedS : ∀ u ∈ sitemapSeeds,
      u.full ∈ s.discoveredUrls ∨ cfg.maxPages ≤ s.discoveredUrls.length :=
    fun u hu => hseeds u (List.mem_append_left _ hu)
  have hseedR : ∀ u ∈ robotsSeeds,
      u.full ∈ s.discoveredUrls ∨ cfg.maxPages ≤ s.discoveredUrls.length :=
    fun u hu => hseeds u (List.mem_append_right _ hu)
  have hfr2 : (if cfg.followSitemaps then
      seedFrom cfg "sitemap" (lowerStr h) sitemapSeeds
        ⟨s.discoveredUrls, sortQueue [], s.nextSeq⟩
    else ⟨s.discoveredUrls, sortQueue [], s.nextSeq⟩) =
      ⟨s.discoveredUrls, sortQueue [], s.nextSeq⟩ := by
    split
    · exact seedFrom_noop _ _ _ _ _ hseedS
    · rfl
  rw [hfr2]
  have hfr3 : (if cfg.respectRobots then
      seedFrom cfg "robots" (lowerStr h) robotsSeeds
        ⟨s.discoveredUrls, sortQueue [], s.nextSeq⟩
    else ⟨s.discoveredUrls, sortQueue [], s.nextSeq⟩) =
      ⟨s.discoveredUrls, sortQueue [], s.nextSeq⟩ := by
    split
    · exact seedFrom_noop _ _ _ _ _ hseedR
    · rfl
  rw [hfr3]
  rw [performComprehensiveCrawl]
  rw [runWorker_empty_queue _ _ _ _ _ _ _ (by rfl)]
  simp

/-- Witness for C8: a one-page completed crawl of `https://example.test/`
resumed immediately afterwards. -/
theorem c8_resume_completed_noop_witness :
    crawlWebsite defaultConfig noResolve c4Fetch c4ParseHost
        (some ⟨["https://example.test/"], ["https://example.test/"], [], [],
          0, 1⟩) [] [] 0 "https://example.test/" true "t1" 8 =
      { links := []
        stats :=
          { pagesCrawled := 0, totalUrls := 1, errors := 0, domains := 0,
            sitemapsFound := 0 }
        error := none
        saves := [SaveEvent.final] } := by
  have h := c8_resume_completed_noop defaultConfig noResolve c4Fetch
    c4ParseHost ⟨["https://example.test/"], ["https://example.test/"], [], [],
      0, 1⟩ [] [] 0 "https://example.test/" "t1" 8 "example.test"
    (by decide) rfl (Or.inl (by decide)) (by intro u hu; simp at hu)
  exact h

/-! ### C10: `crawlWebsite` never throws; error-result shape -/

/-- C10: `crawlWebsite` is a total function into result objects (the model
needs no exception monad: every statement of the `try` block except the
start-URL parse catches its own failures).  Its `error` field is set exactly
when the start URL fails to parse — the one top-level throw — and in that
case the result is the fixed object with no links and stats
`(pagesCrawled, totalUrls, errors, domains, sitemapsFound) = (0, 0, 1, 0, 0)`
regardless of any other input: partial progress is discarded. -/
theorem c10_top_level_error_shape (cfg : CrawlConfig)
    (resolve : String → String → Option UrlV) (fetch : String → Option Page)
    (parseHost : String → Option String) (loadResult : Option SavedState)
    (sitemapSeeds robotsSeeds : List UrlV) (sitemapCacheCount : Nat)
    (startUrl : String) (resume : Bool) (now : String) (fuel : Nat) :
    ((crawlWebsite cfg resolve fetch parseHost loadResult sitemapSeeds
        robotsSeeds sitemapCacheCount startUrl resume now
        fuel).error.isSome ↔ parseHost startUrl = none) ∧
    ((crawlWebsite cfg resolve fetch parseHost loadResult sitemapSeeds
        robotsSeeds sitemapCacheCount startUrl resume now
        fuel).error.isSome →
      crawlWebsite cfg resolve fetch parseHost loadResult sitemapSeeds
          robotsSeeds sitemapCacheCount startUrl resume now fuel =
        { links := []
          stats := ⟨0, 0, 1, 0, 0⟩
          error := some "Invalid URL"
          saves := [] }) := by
  cases hp : parseHost startUrl with
  | none =>
    constructor
    · simp [crawlWebsite, hp]
    · intro _
      simp [crawlWebsite, hp]
  | some h =>
    constructor
    · simp [crawlWebsite, hp]
    · intro habs
      exfalso
      simp [crawlWebsite, hp] at habs

/-- Witness for C10: a start URL that fails to parse yields exactly the
zeroed error result. -/
theorem c10_top_level_error_shape_witness :
    crawlWebsite defaultConfig noResolve c4Fetch (fun _ => none) none [] [] 0
        "not a url" false "t0" 4 =
      { links := []
        stats := ⟨0, 0, 1, 0, 0⟩
        error := some "Invalid URL"
        saves := [] } :=
  (c10_top_level_error_shape defaultConfig noResolve c4Fetch (fun _ => none)
    none [] [] 0 "not a url" false "t0" 4).2 (by decide)

/-! ### C5: persistence of external-link rows (`route.ts`) -/

/-- A row of the `outgoing_links` table. -/
structure DbRow where
  domain_id : Nat
  source_url : String
  target_url : String
  target_domain : String
  anchor_text : String
  rel_type : String
  is_nofollow : Bool
  created_at : String
deriving DecidableEq

/-- The `INSERT INTO outgoing_links` row built from a crawl link. -/
def rowOfLink (domainId : Nat) (l : ExtLink) : DbRow :=
  ⟨domainId, l.source_url, l.target_url, l.target_domain, l.anchor_text,
    l.rel_type, l.is_nofollow, l.created_at⟩

/-- Model of the route's persistence steps 2–3 after a completed crawl:
`DELETE FROM outgoing_links WHERE domain_id = $1` followed by inserting every
link of `crawlResult.links`. -/
def persistCrawlResults (domainId : Nat) (links : List ExtLink)
    (outgoingLinks : List DbRow) : List DbRow :=
  (outgoingLinks.filter (fun r => !(r.domain_id == domainId))) ++
    links.map (rowOfLink domainId)

def c5PriorRow : DbRow :=
  ⟨7, "https://a.test/", "https://b.test/x", "b.test", "A", "", false, "t0"⟩

/-- C5 counterexample: a row already persisted for the domain is deleted by
the next completed crawl's persistence pass — the store is not append-only,
and no 20-record batches are flushed during the crawl (the crawler only
accumulates `allLinks` in memory; the route writes once, after drain, with a
pre-clear). -/
theorem c5_counterexample :
    c5PriorRow ∈ [c5PriorRow] ∧ persistCrawlResults 7 [] [c5PriorRow] = [] :=
  ⟨List.mem_singleton.mpr rfl, rfl⟩

/-- C5 (amended): external-link records are accumulated in memory during the
crawl and written once after completion; the write replaces the domain's
rows — a row is in the resulting table iff it was there before with a
different `domain_id`, or it comes from the completed crawl's links. -/
theorem c5_persist_replaces_domain_rows (domainId : Nat)
    (links : List ExtLink) (db : List DbRow) :
    ∀ r : DbRow, r ∈ persistCrawlResults domainId links db ↔
      ((r ∈ db ∧ ¬(r.domain_id = domainId)) ∨
        r ∈ links.map (rowOfLink domainId)) := by
  intro r
  simp [persistCrawlResults, List.mem_filter, List.mem_append]

/-- Witness for C5's amended theorem: a foreign-domain row survives and a
crawl link appears. -/
theorem c5_persist_replaces_domain_rows_witness :
    ⟨3, "https://a.test/", "https://b.test/x", "b.test", "A", "", false,
      "t0"⟩ ∈ persistCrawlResults 7
        [⟨"https://e.test/", "https://b.test/y", "b.test", "B", "", false,
          "t1"⟩]
        [⟨3, "https://a.test/", "https://b.test/x", "b.test", "A", "", false,
          "t0"⟩] :=
  (c5_persist_replaces_domain_rows 7
    [⟨"https://e.test/", "https://b.test/y", "b.test", "B", "", false, "t1"⟩]
    [⟨3, "https://a.test/", "https://b.test/x", "b.test", "A", "", false,
      "t0"⟩]
    ⟨3, "https://a.test/", "https://b.test/x", "b.test", "A", "", false,
      "t0"⟩).mpr
    (Or.inl ⟨List.mem_singleton.mpr rfl, by decide⟩)

end Webscraper
